import Mathlib

/-!
Shallow embedding of the two challenge engines of this repository:

* `src/BubbleSort.tsx` — the local timed multi-round challenge engine
  (stimulus generator, dual countdown timers, ordered-selection scorer,
  session controller), embedded as an explicit state machine `BubbleSort.MState`
  driven by discrete events (`BubbleSort.Event`).
* `src/PipePuzzle.tsx` — the remote-backed session client (`PathfinderGame`),
  embedded as pure handler functions taking the remote call's outcome as an
  explicit `Except` argument.

Randomness (`Math.random()`) is embedded as an explicit draw stream
`rand : Nat → Nat` together with a running draw index: each call of
`randomInt(min, max)` in the source consumes one draw `r` and yields
`min + r % (max + 1 - min)`, which for `min ≤ max` is exactly
`Math.floor(q * (max - min + 1)) + min` with `q` uniform on `[0, 1)`.
Timestamps (`Date.now()`) are an explicit millisecond clock in the state.
-/

namespace BubbleSort

/-- The four expression operators of `src/BubbleSort.tsx` (`'+' | '-' | '×' | '÷'`). -/
inductive Operator where
  | add
  | sub
  | mul
  | div
deriving DecidableEq, Repr

/-- The displayed expression string of a bubble, kept structured
(the source renders it as the string `a op b`). -/
structure Expr where
  lhs : Nat
  op : Operator
  rhs : Nat
deriving DecidableEq, Repr

/-- Evaluation of a displayed expression. All generated operand pairs make the
subtraction non-negative and the division exact, so `Nat` arithmetic agrees
with the JavaScript number arithmetic on every generated expression. -/
def evalExpr : Expr → Nat
  | ⟨a, .add, b⟩ => a + b
  | ⟨a, .sub, b⟩ => a - b
  | ⟨a, .mul, b⟩ => a * b
  | ⟨a, .div, b⟩ => a / b

/-- Source record `BubbleData`: one stimulus with its layout slot. -/
structure BubbleData where
  id : Nat
  expression : Expr
  value : Nat
  selected : Bool
  offsetX : Nat
  offsetY : Nat
  size : Nat
deriving DecidableEq, Repr

/-- Source record `RoundResult`. `score = correct - wrong` may be negative. -/
structure RoundResult where
  round : Nat
  correct : Nat
  wrong : Nat
  score : Int
  timeUsed : Nat
  completed : Bool
deriving DecidableEq, Repr

/-- Source record `DifficultyConfig`. -/
structure DifficultyConfig where
  bubbleCount : Nat
  operators : List Operator
  maxNumber : Nat
  roundTime : Nat
deriving DecidableEq, Repr

/-- Source type `GameScreen`. -/
inductive GameScreen where
  | INSTRUCTIONS
  | PLAYING
  | COMPLETE
deriving DecidableEq, Repr

def SESSION_DURATION : Nat := 420

def ROUND_TIME : Nat := 15

def TOTAL_QUESTIONS : Nat := 20

def CORRECT_DELAY_MS : Nat := 250

def DIFFICULTY_TABLE : List DifficultyConfig :=
  [ ⟨3, [.add], 20, ROUND_TIME⟩,
    ⟨3, [.add], 30, ROUND_TIME⟩,
    ⟨3, [.add, .sub], 20, ROUND_TIME⟩,
    ⟨3, [.add, .sub], 30, ROUND_TIME⟩,
    ⟨3, [.add, .sub, .mul], 15, ROUND_TIME⟩,
    ⟨3, [.add, .sub, .mul], 20, ROUND_TIME⟩,
    ⟨3, [.add, .sub, .mul, .div], 20, ROUND_TIME⟩,
    ⟨3, [.add, .sub, .mul, .div], 30, ROUND_TIME⟩ ]

/-- Source table `SCATTER_POSITIONS`: each entry is `(x, y, s)`. -/
def SCATTER_POSITIONS : List (List (Nat × Nat × Nat)) :=
  [ [(50, 20, 130), (28, 58, 130), (72, 58, 130)],
    [(28, 30, 130), (72, 30, 130), (50, 68, 130)],
    [(72, 58, 130), (50, 20, 130), (28, 58, 130)],
    [(50, 68, 130), (28, 30, 130), (72, 30, 130)] ]

/-- Source function `randomInt(min, max)` with the random draw `r` made explicit:
`Math.floor(q * (max - min + 1)) + min` for uniform `q ∈ [0,1)`.
All call sites in the source have `min ≤ max`. -/
def randomInt (lo hi r : Nat) : Nat :=
  lo + r % (hi + 1 - lo)

/-- Result record of `generateExpression` (`{ expression, value }`). -/
structure ExprValue where
  expression : Expr
  value : Nat
deriving DecidableEq, Repr

/-- Source function `generateExpression(operators, maxNum)`. Consumes three
draws: one for the operator choice (`operators[floor(q * length)]`, with the
switch default falling back to addition) and two for the operands. Returns the
generated item together with the next draw index. -/
def generateExpression (operators : List Operator) (maxNum : Nat)
    (rand : Nat → Nat) (idx : Nat) : ExprValue × Nat :=
  let op := operators.getD (rand idx % operators.length) .add
  match op with
  | .add =>
    let a := randomInt 1 maxNum (rand (idx + 1))
    let b := randomInt 1 maxNum (rand (idx + 2))
    (⟨⟨a, .add, b⟩, a + b⟩, idx + 3)
  | .sub =>
    let a := randomInt 2 maxNum (rand (idx + 1))
    let b := randomInt 0 a (rand (idx + 2))
    (⟨⟨a, .sub, b⟩, a - b⟩, idx + 3)
  | .mul =>
    let a := randomInt 1 (min maxNum 12) (rand (idx + 1))
    let b := randomInt 1 (min maxNum 9) (rand (idx + 2))
    (⟨⟨a, .mul, b⟩, a * b⟩, idx + 3)
  | .div =>
    let b := randomInt 2 (min maxNum 10) (rand (idx + 1))
    let v := randomInt 1 (min maxNum 12) (rand (idx + 2))
    (⟨⟨b * v, .div, b⟩, v⟩, idx + 3)

/-- The retry cap of `generateBubbles` (`attempts < 50`). -/
def ATTEMPT_CAP : Nat := 50

/-- The retry loop of `generateBubbles`: draw expressions until the value is
fresh or the attempt counter reaches the cap (`do … while
(usedValues.has(expr.value) && attempts < 50)`). `fuel` is the number of
retries still allowed (the top-level call passes `ATTEMPT_CAP - 1`, so the
`k`-th generation retries exactly when its value duplicates and `k < 50`).
Returns the accepted item, the number of attempts made, and the next draw
index. -/
def genLoop (operators : List Operator) (maxNum : Nat) (rand : Nat → Nat)
    (used : List Nat) (idx : Nat) (fuel : Nat) : ExprValue × Nat × Nat :=
  let r := generateExpression operators maxNum rand idx
  match fuel with
  | f + 1 =>
    if r.1.value ∈ used then
      let g := genLoop operators maxNum rand used r.2 f
      (g.1, g.2.1 + 1, g.2.2)
    else (r.1, 1, r.2)
  | 0 => (r.1, 1, r.2)

/-- The slot loop of `generateBubbles`, with the per-slot attempt counts kept
as an explicit diagnostic list (the `attempts` local variable of the source).
`i` is the slot index (the bubble id), `k` the number of slots left. -/
def genBubblesAux (operators : List Operator) (maxNum : Nat)
    (layout : List (Nat × Nat × Nat)) (rand : Nat → Nat) :
    (i k : Nat) → (used : List Nat) → (idx : Nat) →
      List BubbleData × List Nat × Nat
  | _, 0, _, idx => ([], [], idx)
  | i, k + 1, used, idx =>
    let g := genLoop operators maxNum rand used idx (ATTEMPT_CAP - 1)
    let pos := layout.getD i (0, 0, 0)
    let b : BubbleData :=
      ⟨i, g.1.expression, g.1.value, false, pos.1, pos.2.1, pos.2.2⟩
    let rest :=
      genBubblesAux operators maxNum layout rand (i + 1) k (g.1.value :: used) g.2.2
    (b :: rest.1, g.2.1 :: rest.2.1, rest.2.2)

/-- Source function `generateBubbles(config, round)`, returning the bubbles,
the per-slot attempt counts, and the next draw index. The layout row is
`SCATTER_POSITIONS[(round - 1) % 4]`. -/
def generateBubblesFull (config : DifficultyConfig) (round : Nat)
    (rand : Nat → Nat) (idx : Nat) : List BubbleData × List Nat × Nat :=
  let layout := SCATTER_POSITIONS.getD ((round - 1) % SCATTER_POSITIONS.length) []
  genBubblesAux config.operators config.maxNumber layout rand 0 config.bubbleCount [] idx

/-- Projection of `generateBubblesFull` without the diagnostic attempt counts. -/
def generateBubbles (config : DifficultyConfig) (round : Nat)
    (rand : Nat → Nat) (idx : Nat) : List BubbleData × Nat :=
  let g := generateBubblesFull config round rand idx
  (g.1, g.2.2)

/-- The environment captured by the `endRound` closure of a given render
(`useCallback` dependencies `[round, correctCount, wrongCount, sessionTime]`).
The settle timeout scheduled by `handleBubbleClick` holds such a capture,
taken from the committed render at click time — before the final click's
increments are applied. -/
structure Capture where
  round : Nat
  correctCount : Nat
  wrongCount : Nat
  sessionTime : Nat
deriving DecidableEq, Repr

/-- One scheduled `setTimeout(() => endRound(true), CORRECT_DELAY_MS)`. -/
structure Settle where
  cap : Capture
  delay : Nat
deriving DecidableEq, Repr

/-- The full component state of `BubbleSort` — the `useState` hooks, the two
`useRef` cells (`roundStartRef`, `roundEndedRef`), a millisecond clock standing
for `Date.now()`, the random draw stream with its running index, and the queue
of scheduled settle timeouts. -/
structure MState where
  screen : GameScreen
  round : Nat
  sessionTime : Nat
  roundTime : Nat
  bubbles : List BubbleData
  selectionOrder : Nat
  roundResults : List RoundResult
  correctCount : Nat
  wrongCount : Nat
  totalScore : Int
  processing : Bool
  roundStart : Nat
  roundEnded : Bool
  clock : Nat
  rand : Nat → Nat
  randIdx : Nat
  pendingSettle : List Settle

/-- Component mount state (initial `useState` values; `roundStartRef` starts at
the mount-time clock, taken as 0). -/
def initState (rand : Nat → Nat) : MState where
  screen := .INSTRUCTIONS
  round := 1
  sessionTime := SESSION_DURATION
  roundTime := ROUND_TIME
  bubbles := []
  selectionOrder := 0
  roundResults := []
  correctCount := 0
  wrongCount := 0
  totalScore := 0
  processing := false
  roundStart := 0
  roundEnded := false
  clock := 0
  rand := rand
  randIdx := 0
  pendingSettle := []

/-- Source function `startRound(roundNum)`: fresh bubbles, round clock reset,
counters cleared, latch cleared, round start time stamped. -/
def startRound (roundNum : Nat) (s : MState) : MState :=
  let cfg := DIFFICULTY_TABLE.getD
    (min (roundNum - 1) (DIFFICULTY_TABLE.length - 1)) ⟨3, [.add], 20, ROUND_TIME⟩
  let g := generateBubbles cfg roundNum s.rand s.randIdx
  { s with
    bubbles := g.1
    randIdx := g.2
    roundTime := cfg.roundTime
    selectionOrder := 0
    correctCount := 0
    wrongCount := 0
    processing := false
    roundEnded := false
    roundStart := s.clock }

/-- The source computation `Math.round((Date.now() - roundStartRef.current) / 1000)` in `Nat`
arithmetic (round half up). -/
def timeUsedOf (s : MState) : Nat :=
  (s.clock - s.roundStart + 500) / 1000

/-- The body of `endRound(completed)`, parameterised by the closure capture it
reads `round`, `correctCount`, `wrongCount` and `sessionTime` from. The
one-shot latch `roundEndedRef` is read and written on the live state. The
functional `setState` updates (`setTotalScore`, `setRoundResults`, `setRound`)
act on the live state; `startRound` is invoked with the captured round. -/
def endRoundWith (cap : Capture) (completed : Bool) (s : MState) : MState :=
  if s.roundEnded then s
  else
    let s1 := { s with roundEnded := true }
    let roundScore : Int := (cap.correctCount : Int) - (cap.wrongCount : Int)
    let s2 := { s1 with
      totalScore := s1.totalScore + roundScore
      roundResults := s1.roundResults ++
        [(⟨cap.round, cap.correctCount, cap.wrongCount, roundScore, timeUsedOf s1,
           completed⟩ : RoundResult)] }
    if cap.sessionTime = 0 ∨ TOTAL_QUESTIONS ≤ cap.round then
      { s2 with screen := .COMPLETE }
    else
      startRound (cap.round + 1) { s2 with round := s2.round + 1 }

/-- The live capture: what the latest committed `endRound` closure reads
(the round timer always calls this version through `endRoundRef`). -/
def captureOf (s : MState) : Capture :=
  ⟨s.round, s.correctCount, s.wrongCount, s.sessionTime⟩

/-- Function `endRound(completed)` invoked through `endRoundRef.current`: reads the
current committed state. -/
def endRound (completed : Bool) (s : MState) : MState :=
  endRoundWith (captureOf s) completed s

/-- Source handler `handleBubbleClick(bubbleId)`. On the last correct pick it
sets `processing` and schedules `endRound(true)` after `CORRECT_DELAY_MS`,
capturing the pre-click render's closure values. -/
def handleBubbleClick (bubbleId : Nat) (s : MState) : MState :=
  if s.processing = true ∨ s.screen ≠ .PLAYING then s
  else
    match s.bubbles.find? (fun b => b.id == bubbleId) with
    | none => s
    | some bubble =>
      if bubble.selected then s
      else
        let unselected :=
          (s.bubbles.filter (fun b => !b.selected)).insertionSort
            (fun a b => a.value ≤ b.value)
        match unselected with
        | [] => s
        | top :: _ =>
          if bubble.id = top.id then
            let updated := s.bubbles.map fun b =>
              if b.id = bubbleId then { b with selected := true } else b
            let s1 := { s with
              correctCount := s.correctCount + 1
              selectionOrder := s.selectionOrder + 1
              bubbles := updated }
            if (updated.filter (fun b => !b.selected)).length = 0 then
              { s1 with
                processing := true
                pendingSettle := s1.pendingSettle ++ [⟨captureOf s, CORRECT_DELAY_MS⟩] }
            else s1
          else { s with wrongCount := s.wrongCount + 1 }

/-- Source handler `handleStart`: enter `PLAYING`, reset the session clock and
the result list, start round 1. -/
def handleStart (s : MState) : MState :=
  startRound 1 { s with
    screen := .PLAYING
    round := 1
    sessionTime := SESSION_DURATION
    roundResults := []
    totalScore := 0 }

/-- Source handler `handleSubmit` (the manual early-submit button, rendered only
while `PLAYING`): records the current round unconditionally and terminates. -/
def handleSubmit (s : MState) : MState :=
  let roundScore : Int := (s.correctCount : Int) - (s.wrongCount : Int)
  { s with
    totalScore := s.totalScore + roundScore
    roundResults := s.roundResults ++
      [(⟨s.round, s.correctCount, s.wrongCount, roundScore, timeUsedOf s,
         s.bubbles.all (·.selected)⟩ : RoundResult)]
    screen := .COMPLETE }

/-- The discrete events driving the component: the two one-second interval
callbacks (active only while `PLAYING`), a bubble click, the firing of a
scheduled settle timeout, the early-submit button, and plain passage of
wall-clock time. -/
inductive Event where
  | sessionTick
  | roundTick
  | click (bubbleId : Nat)
  | settleFire
  | submit
  | elapse (ms : Nat)

/-- One step of the component. `sessionTick` is the session-timer interval
body: on expiry it only sets the screen and zeroes the clock (it does not call
`endRound`). `roundTick` is the round-timer interval body: on expiry the
updater calls `endRound(false)` and returns 0; since `endRound` never reads
`roundTime` and `startRound` overwrites it, this equals running `endRound` on
the state with `roundTime` zeroed. `settleFire` runs the oldest scheduled
settle timeout with its captured closure values. -/
def step (s : MState) : Event → MState
  | .sessionTick =>
    if s.screen ≠ .PLAYING then s
    else if s.sessionTime ≤ 1 then { s with screen := .COMPLETE, sessionTime := 0 }
    else { s with sessionTime := s.sessionTime - 1 }
  | .roundTick =>
    if s.screen ≠ .PLAYING then s
    else if s.roundTime ≤ 1 then endRound false { s with roundTime := 0 }
    else { s with roundTime := s.roundTime - 1 }
  | .click i => handleBubbleClick i s
  | .settleFire =>
    match s.pendingSettle with
    | [] => s
    | st :: rest => endRoundWith st.cap true { s with pendingSettle := rest }
  | .submit => handleSubmit s
  | .elapse ms => { s with clock := s.clock + ms }

/-- Run a sequence of events. -/
def run (s : MState) (es : List Event) : MState :=
  es.foldl step s

/-- The scoring rule in the words of the spec (§4.3): the stimulus whose
target value is minimal among the listed ones, ties broken in favour of the
first-generated (earliest listed) one. This is the spec-side definition the
code's pick — the head of the stable ascending sort — is compared against. -/
def specFirstMin : List BubbleData → Option BubbleData
  | [] => none
  | b :: bs =>
    match specFirstMin bs with
    | none => some b
    | some c => if b.value ≤ c.value then some b else some c

/-- The per-round counting invariant: `correctCount` equals the number of
stimuli currently marked consumed, and the stimulus ids are pairwise distinct
(as the generator produces them). -/
def scoreInvariant (s : MState) : Prop :=
  s.correctCount = (s.bubbles.filter (·.selected)).length ∧
  (s.bubbles.map (·.id)).Nodup

/-- A concrete draw stream for witnesses and counterexamples. -/
def demoRand : Nat → Nat := fun n => n

/-- A session right after pressing Begin Assessment under `demoRand`:
round 1 holds bubbles 0, 1, 2 with values 5, 11, 17. -/
def playState : MState := handleStart (initState demoRand)

/-- Event list for `n` seconds of play: each second the session interval fires first (it is
installed first in the component), then the round interval. -/
def ticks : Nat → List Event
  | 0 => []
  | n + 1 => Event.sessionTick :: Event.roundTick :: ticks n

/-- A session state one second before session expiry, mid-round. -/
def c1State : MState := { playState with sessionTime := 1 }

/-- The round-end race: the candidate completes round 1 in its final second
(the third click schedules the settle timeout), the round timer expires before
the settle delay elapses, then the stale settle timeout fires. -/
def c3Events : List Event :=
  ticks 14 ++
    [Event.click 0, Event.click 1, Event.click 2,
     Event.sessionTick, Event.roundTick, Event.settleFire]

/-- The state after the round-end race. -/
def c3Final : MState := run playState c3Events

/-- Four clicks on bubble 1 (value 11, never the minimum remaining): each is
scored incorrect, pushing `wrongCount` past the item count. -/
def c10Final : MState :=
  run playState [Event.click 1, Event.click 1, Event.click 1, Event.click 1]

end BubbleSort

namespace PipePuzzle

/-- Source type `Direction`. -/
inductive Direction where
  | UP
  | DOWN
  | LEFT
  | RIGHT
deriving DecidableEq, Repr

/-- Source type `TileType`. -/
inductive TileType where
  | STRAIGHT
  | CORNER
  | EMPTY
deriving DecidableEq, Repr

/-- Source type `GameStatus`. -/
inductive GameStatus where
  | PLAYING
  | ANIMATING
  | WON
  | LOST
deriving DecidableEq, Repr

/-- Source record `TileState` (also the shape of `ApiTile`). -/
structure TileState where
  id : String
  row : Nat
  col : Nat
  type : TileType
  openings : List Direction
deriving DecidableEq, Repr

/-- Source record `EntryExit`. -/
structure EntryExit where
  row : Nat
  col : Nat
  direction : Direction
deriving DecidableEq, Repr

/-- Source record `Position`. -/
structure Position where
  row : Nat
  col : Nat
deriving DecidableEq, Repr

/-- Source record `PathCell`. -/
structure PathCell where
  row : Nat
  col : Nat
deriving DecidableEq, Repr

/-- Source record `GameState` (`end` is a reserved word here, hence
`endPoint`). -/
structure GameState where
  grid : List (List TileState)
  start : EntryExit
  endPoint : EntryExit
  status : GameStatus
  selectedTile : Option Position
  timeRemaining : Nat
  attempts : Nat
  moves : Nat
  rotations : Nat
  flips : Nat
deriving DecidableEq, Repr

/-- Record `GridResponse` of the remote rotate/flip calls; the counters are optional
(`rotations?`, `flips?`). -/
structure GridResponse where
  grid : List (List TileState)
  rotations : Option Nat
  flips : Option Nat
deriving DecidableEq, Repr

/-- Record `SubmitResponse` of the remote submit call. `path` is kept optional
because the client guards on its presence (`res.valid && res.path`); an empty
array is truthy in JavaScript and so counts as present. -/
structure SubmitResponse where
  valid : Bool
  status : String
  path : Option (List PathCell)
deriving DecidableEq, Repr

/-- The response of the remote select call (`{ moves }`). -/
structure SelectResponse where
  moves : Nat
deriving DecidableEq, Repr

def GAME_DURATION : Nat := 240

def ANIMATION_STEP_MS : Nat := 400

def ANIMATION_END_BUFFER_MS : Nat := 800

/-- Source function `toGrid`: rebuild the local grid snapshot from the
authority's tiles (fields copied one by one, `openings` copied by spread). -/
def toGrid (apiGrid : List (List TileState)) : List (List TileState) :=
  apiGrid.map fun row => row.map fun t =>
    ⟨t.id, t.row, t.col, t.type, t.openings⟩

/-- The client-side state of one `PathfinderGame` instance: the session token,
the `gameState` hook, and the `animationPath` hook. -/
structure ClientState where
  sessionId : String
  game : GameState
  animationPath : List PathCell
deriving DecidableEq, Repr

/-- Source handler `handleTileClick(pos)`. The local update (select the tile,
bump `moves`) happens when the handler runs, before the remote call resolves;
the call's outcome — success or rejection — is ignored (a rejection is only
logged with `console.warn`), so it is a dead argument here. -/
def handleTileClick (s : ClientState) (pos : Position)
    (outcome : Except String SelectResponse) : ClientState :=
  if s.game.status ≠ .PLAYING ∨ s.sessionId = "" then s
  else
    let _ := outcome
    { s with game := { s.game with selectedTile := some pos, moves := s.game.moves + 1 } }

/-- Source handler `handleRotate`: on success the grid snapshot is replaced
wholesale by the response grid and `rotations` is taken from the response when
present, else bumped; a rejection is only logged. -/
def handleRotate (s : ClientState)
    (outcome : Except String GridResponse) : ClientState :=
  if s.game.status ≠ .PLAYING ∨ s.game.selectedTile = none ∨ s.sessionId = "" then s
  else
    match outcome with
    | .error _ => s
    | .ok res =>
      { s with game := { s.game with
          grid := toGrid res.grid
          rotations := res.rotations.getD (s.game.rotations + 1) } }

/-- Source handler `handleFlip`, the mirror image of `handleRotate`. -/
def handleFlip (s : ClientState)
    (outcome : Except String GridResponse) : ClientState :=
  if s.game.status ≠ .PLAYING ∨ s.game.selectedTile = none ∨ s.sessionId = "" then s
  else
    match outcome with
    | .error _ => s
    | .ok res =>
      { s with game := { s.game with
          grid := toGrid res.grid
          flips := res.flips.getD (s.game.flips + 1) } }

/-- Source handler `handleSubmit`. On an accepted submit with a present path it
enters `ANIMATING` and schedules the `WON` transition after
`path.length * ANIMATION_STEP_MS + ANIMATION_END_BUFFER_MS` milliseconds; the
second component of the result is that scheduled delay (`none` when nothing is
scheduled). A rejected call is only logged. -/
def handleSubmit (s : ClientState)
    (outcome : Except String SubmitResponse) : ClientState × Option Nat :=
  if s.game.status ≠ .PLAYING ∨ s.sessionId = "" then (s, none)
  else
    match outcome with
    | .error _ => (s, none)
    | .ok res =>
      match res.path with
      | some p =>
        if res.valid then
          ({ s with
              animationPath := p
              game := { s.game with status := .ANIMATING, attempts := s.game.attempts + 1 } },
            some (p.length * ANIMATION_STEP_MS + ANIMATION_END_BUFFER_MS))
        else
          ({ s with game := { s.game with attempts := s.game.attempts + 1 } }, none)
      | none =>
        ({ s with game := { s.game with attempts := s.game.attempts + 1 } }, none)

/-- The body of the timeout scheduled by an accepted submit: clear the
animation path and enter the terminal `WON` state. -/
def wonFire (s : ClientState) : ClientState :=
  { s with animationPath := [], game := { s.game with status := .WON } }

/-- A concrete one-tile grid for witnesses and counterexamples. -/
def demoTile : TileState := ⟨"t00", 0, 0, .STRAIGHT, [.LEFT, .RIGHT]⟩

/-- A concrete live game state. -/
def demoGame : GameState :=
  ⟨[[demoTile]], ⟨0, 0, .LEFT⟩, ⟨0, 0, .RIGHT⟩, .PLAYING, none,
    GAME_DURATION, 0, 0, 0, 0⟩

/-- A concrete client state with an active session. -/
def demoClient : ClientState := ⟨"session-1", demoGame, []⟩

end PipePuzzle

/-! ## Properties of the stimulus generator -/

namespace BubbleSort

theorem randomInt_ge (lo hi r : Nat) : lo ≤ randomInt lo hi r := by
  unfold randomInt; omega

theorem randomInt_le (lo hi r : Nat) (h : lo ≤ hi) : randomInt lo hi r ≤ hi := by
  have hlt : r % (hi + 1 - lo) < hi + 1 - lo := Nat.mod_lt _ (by omega)
  unfold randomInt; omega

/-- When the retry loop stops without using up its fuel, the accepted value is
fresh with respect to the already-placed values. -/
theorem genLoop_fresh (operators : List Operator) (maxNum : Nat) (rand : Nat → Nat) :
    ∀ (fuel : Nat) (used : List Nat) (idx : Nat),
      (genLoop operators maxNum rand used idx fuel).2.1 ≤ fuel →
      (genLoop operators maxNum rand used idx fuel).1.value ∉ used := by
  intro fuel
  induction fuel with
  | zero =>
    intro used idx h
    simp only [genLoop] at h
    omega
  | succ f ih =>
    intro used idx h
    by_cases hmem : (generateExpression operators maxNum rand idx).1.value ∈ used
    · simp only [genLoop, if_pos hmem] at h ⊢
      exact ih used _ (by omega)
    · simp only [genLoop, if_neg hmem] at h ⊢
      exact hmem

theorem genBubblesAux_length (operators : List Operator) (maxNum : Nat)
    (layout : List (Nat × Nat × Nat)) (rand : Nat → Nat) :
    ∀ (k i : Nat) (used : List Nat) (idx : Nat),
      (genBubblesAux operators maxNum layout rand i k used idx).1.length = k := by
  intro k
  induction k with
  | zero => intro i used idx; simp [genBubblesAux]
  | succ n ih => intro i used idx; simp [genBubblesAux, ih]

theorem genBubblesAux_unselected (operators : List Operator) (maxNum : Nat)
    (layout : List (Nat × Nat × Nat)) (rand : Nat → Nat) :
    ∀ (k i : Nat) (used : List Nat) (idx : Nat),
      ∀ b ∈ (genBubblesAux operators maxNum layout rand i k used idx).1,
        b.selected = false := by
  intro k
  induction k with
  | zero => intro i used idx b hb; simp [genBubblesAux] at hb
  | succ n ih =>
    intro i used idx b hb
    simp only [genBubblesAux, List.mem_cons] at hb
    rcases hb with rfl | hb
    · rfl
    · exact ih (i + 1) _ _ b hb

theorem genBubblesAux_ids (operators : List Operator) (maxNum : Nat)
    (layout : List (Nat × Nat × Nat)) (rand : Nat → Nat) :
    ∀ (k i : Nat) (used : List Nat) (idx : Nat),
      (genBubblesAux operators maxNum layout rand i k used idx).1.map (·.id) =
        List.range' i k := by
  intro k
  induction k with
  | zero => intro i used idx; simp [genBubblesAux, List.range']
  | succ n ih =>
    intro i used idx
    simp only [genBubblesAux, List.map_cons, List.range']
    exact congrArg _ (ih (i + 1) _ _)

/-- If no slot used up its attempt budget, the generated values avoid `used`
and are pairwise distinct. -/
theorem genBubblesAux_values_nodup (operators : List Operator) (maxNum : Nat)
    (layout : List (Nat × Nat × Nat)) (rand : Nat → Nat) :
    ∀ (k i : Nat) (used : List Nat) (idx : Nat),
      (∀ a ∈ (genBubblesAux operators maxNum layout rand i k used idx).2.1,
          a < ATTEMPT_CAP) →
      ((genBubblesAux operators maxNum layout rand i k used idx).1.map
          (·.value)).Nodup ∧
      ∀ v ∈ (genBubblesAux operators maxNum layout rand i k used idx).1.map
          (·.value), v ∉ used := by
  intro k
  induction k with
  | zero => intro i used idx _; simp [genBubblesAux]
  | succ n ih =>
    intro i used idx hatt
    simp only [genBubblesAux, List.map_cons] at hatt ⊢
    have hhead :
        (genLoop operators maxNum rand used idx (ATTEMPT_CAP - 1)).2.1 <
          ATTEMPT_CAP := by
      exact hatt _ (by simp)
    have hfresh :
        (genLoop operators maxNum rand used idx (ATTEMPT_CAP - 1)).1.value ∉
          used := by
      refine genLoop_fresh operators maxNum rand _ used idx ?_
      have : ATTEMPT_CAP = 50 := rfl
      omega
    have htail := ih (i + 1)
      ((genLoop operators maxNum rand used idx (ATTEMPT_CAP - 1)).1.value :: used)
      (genLoop operators maxNum rand used idx (ATTEMPT_CAP - 1)).2.2
      (fun a ha => hatt a (by simp [ha]))
    refine ⟨List.nodup_cons.2 ⟨?_, htail.1⟩, ?_⟩
    · intro hmem
      exact (htail.2 _ hmem) (by simp)
    · intro v hv
      simp only [List.mem_cons] at hv
      rcases hv with rfl | hv
      · exact hfresh
      · intro hvu
        exact (htail.2 v hv) (by simp [hvu])

end BubbleSort

namespace BubbleSort

/-- C5: a generated round whose slots all stayed below the 50-attempt retry
cap has pairwise distinct target values; and regardless of the cap, generation
always returns the full `bubbleCount` stimuli rather than failing. -/
theorem claim_C5 (config : DifficultyConfig) (round : Nat) (rand : Nat → Nat)
    (idx : Nat) :
    (generateBubbles config round rand idx).1.length = config.bubbleCount ∧
    ((∀ a ∈ (generateBubblesFull config round rand idx).2.1, a < ATTEMPT_CAP) →
      ((generateBubbles config round rand idx).1.map (·.value)).Nodup) := by
  constructor
  · exact genBubblesAux_length _ _ _ _ _ _ _ _
  · intro h
    exact (genBubblesAux_values_nodup _ _ _ _ _ _ _ _ h).1

/-- Witness for C5 at a concrete difficulty row and draw stream: every slot
used one attempt, and the three generated values 5, 11, 17 are distinct. -/
theorem claim_C5_witness :
    ((generateBubbles ⟨3, [.add], 20, 15⟩ 1 demoRand 0).1.length = 3 ∧
      ((generateBubbles ⟨3, [.add], 20, 15⟩ 1 demoRand 0).1.map
          (·.value)).Nodup) :=
  ⟨(claim_C5 ⟨3, [.add], 20, 15⟩ 1 demoRand 0).1,
    (claim_C5 ⟨3, [.add], 20, 15⟩ 1 demoRand 0).2 (by decide)⟩

/-- C6: every generated stimulus evaluates, via its displayed expression, to
exactly its stored target value; a division stimulus has its divisor in
`[2, min(maxOperand, 10)]`, its quotient in `[1, min(maxOperand, 12)]`, and
its dividend equal to divisor times quotient, so division is always exact. -/
theorem claim_C6 (operators : List Operator) (maxNum : Nat) (rand : Nat → Nat)
    (idx : Nat) (hmax : 2 ≤ maxNum) :
    evalExpr (generateExpression operators maxNum rand idx).1.expression =
      (generateExpression operators maxNum rand idx).1.value ∧
    ((generateExpression operators maxNum rand idx).1.expression.op = .div →
      2 ≤ (generateExpression operators maxNum rand idx).1.expression.rhs ∧
      (generateExpression operators maxNum rand idx).1.expression.rhs ≤
        min maxNum 10 ∧
      1 ≤ (generateExpression operators maxNum rand idx).1.value ∧
      (generateExpression operators maxNum rand idx).1.value ≤ min maxNum 12 ∧
      (generateExpression operators maxNum rand idx).1.expression.lhs =
        (generateExpression operators maxNum rand idx).1.expression.rhs *
          (generateExpression operators maxNum rand idx).1.value) := by
  cases hop : operators.getD (rand idx % operators.length) Operator.add with
  | add =>
    simp only [generateExpression, hop, evalExpr]
    exact ⟨trivial, fun h => nomatch h⟩
  | sub =>
    simp only [generateExpression, hop, evalExpr]
    exact ⟨trivial, fun h => nomatch h⟩
  | mul =>
    simp only [generateExpression, hop, evalExpr]
    exact ⟨trivial, fun h => nomatch h⟩
  | div =>
    simp only [generateExpression, hop, evalExpr]
    have hb2 : 2 ≤ randomInt 2 (min maxNum 10) (rand (idx + 1)) :=
      randomInt_ge _ _ _
    have hbu : randomInt 2 (min maxNum 10) (rand (idx + 1)) ≤ min maxNum 10 :=
      randomInt_le _ _ _ (by omega)
    have hv1 : 1 ≤ randomInt 1 (min maxNum 12) (rand (idx + 2)) :=
      randomInt_ge _ _ _
    have hvu : randomInt 1 (min maxNum 12) (rand (idx + 2)) ≤ min maxNum 12 :=
      randomInt_le _ _ _ (by omega)
    refine ⟨Nat.mul_div_cancel_left _ (by omega), fun _ => ?_⟩
    exact ⟨hb2, hbu, hv1, hvu, trivial⟩

/-- Witness for C6 on the hardest difficulty row (`maxNumber = 30`) at a draw
stream that selects division: the displayed expression evaluates back to the
stored value and the division bounds hold. -/
theorem claim_C6_witness :
    2 ≤ 30 ∧
    evalExpr (generateExpression [.add, .sub, .mul, .div] 30
        (fun n => 3 + n) 0).1.expression =
      (generateExpression [.add, .sub, .mul, .div] 30 (fun n => 3 + n) 0).1.value :=
  ⟨by decide,
    (claim_C6 [.add, .sub, .mul, .div] 30 (fun n => 3 + n) 0 (by decide)).1⟩

end BubbleSort

/-! ## Remote-backed client: failure handling, reconciliation, animation -/

namespace PipePuzzle

/-- Counterexample to C2 as stated: a rejected `select` call does not leave
the client state unchanged — the tile selection and the `moves` counter were
already updated optimistically when the handler ran, and nothing rolls them
back on rejection. -/
theorem claim_C2_cex :
    (handleTileClick demoClient ⟨0, 0⟩ (.error "network error")).game.selectedTile
        = some ⟨0, 0⟩ ∧
    (handleTileClick demoClient ⟨0, 0⟩ (.error "network error")).game.moves = 1 ∧
    demoClient.game.selectedTile = none ∧
    demoClient.game.moves = 0 := by
  decide

/-- C2 amended: a rejected `rotate` or `flip` leaves the client state exactly
unchanged (the failure is only logged); a rejected `select` leaves the grid
and the rotation/flip counters unchanged, but its optimistic update —
`selectedTile` set and `moves` incremented — persists. -/
theorem claim_C2_amended (s : ClientState) (pos : Position) (msg : String) :
    handleRotate s (.error msg) = s ∧
    handleFlip s (.error msg) = s ∧
    (s.game.status = .PLAYING → s.sessionId ≠ "" →
      handleTileClick s pos (.error msg) =
        { s with game := { s.game with
            selectedTile := some pos, moves := s.game.moves + 1 } }) := by
  refine ⟨?_, ?_, ?_⟩
  · unfold handleRotate
    split
    · rfl
    · rfl
  · unfold handleFlip
    split
    · rfl
    · rfl
  · intro h1 h2
    have hguard : ¬(s.game.status ≠ GameStatus.PLAYING ∨ s.sessionId = "") := by
      simp [h1, h2]
    unfold handleTileClick
    rw [if_neg hguard]

/-- Witness for the amended C2 at the concrete client state. -/
theorem claim_C2_witness :
    handleRotate demoClient (.error "e") = demoClient ∧
    handleTileClick demoClient ⟨0, 0⟩ (.error "e") =
      { demoClient with game := { demoClient.game with
          selectedTile := some ⟨0, 0⟩, moves := 1 } } :=
  ⟨(claim_C2_amended demoClient ⟨0, 0⟩ "e").1,
    (claim_C2_amended demoClient ⟨0, 0⟩ "e").2.2 rfl (by decide)⟩

/-- Counterexample to C7 as stated: the `select` response does carry a `moves`
counter, but the client ignores it — after a successful select returning
`moves = 99` the local counter is the optimistic `prev + 1 = 1`, not 99. -/
theorem claim_C7_cex :
    (handleTileClick demoClient ⟨0, 0⟩ (.ok ⟨99⟩)).game.moves = 1 ∧
    (1 : Nat) ≠ 99 := by
  decide

/-- C7 amended: for `rotate` and `flip` the local grid snapshot is replaced
wholesale by the response grid and the counter is taken from the response when
present, else incremented by one; for `select` the response is ignored and
`moves` is always the optimistic `prev + 1`. -/
theorem claim_C7_amended (s : ClientState) (pos : Position)
    (res : GridResponse) (sel : SelectResponse) (n : Nat) :
    (s.game.status = .PLAYING → s.game.selectedTile ≠ none → s.sessionId ≠ "" →
      (handleRotate s (.ok res)).game.grid = toGrid res.grid ∧
      (res.rotations = some n → (handleRotate s (.ok res)).game.rotations = n) ∧
      (res.rotations = none →
        (handleRotate s (.ok res)).game.rotations = s.game.rotations + 1) ∧
      (handleFlip s (.ok res)).game.grid = toGrid res.grid ∧
      (res.flips = some n → (handleFlip s (.ok res)).game.flips = n) ∧
      (res.flips = none → (handleFlip s (.ok res)).game.flips = s.game.flips + 1)) ∧
    (s.game.status = .PLAYING → s.sessionId ≠ "" →
      (handleTileClick s pos (.ok sel)).game.moves = s.game.moves + 1) := by
  constructor
  · intro h1 h2 h3
    have hguard :
        ¬(s.game.status ≠ GameStatus.PLAYING ∨ s.game.selectedTile = none ∨
          s.sessionId = "") := by
      simp [h1, h2, h3]
    unfold handleRotate handleFlip
    rw [if_neg hguard, if_neg hguard]
    refine ⟨rfl, fun hr => ?_, fun hr => ?_, rfl, fun hr => ?_, fun hr => ?_⟩ <;>
      simp [hr]
  · intro h1 h2
    have hguard : ¬(s.game.status ≠ GameStatus.PLAYING ∨ s.sessionId = "") := by
      simp [h1, h2]
    unfold handleTileClick
    rw [if_neg hguard]

/-- Witness for the amended C7: a rotate response carrying `rotations = 7`
overwrites the local counter, and a select leaves `moves` at `prev + 1`. -/
theorem claim_C7_witness :
    (handleRotate { demoClient with game := { demoClient.game with
        selectedTile := some ⟨0, 0⟩ } }
        (.ok ⟨[[demoTile]], some 7, none⟩)).game.rotations = 7 ∧
    (handleTileClick demoClient ⟨0, 0⟩ (.ok ⟨5⟩)).game.moves = 1 :=
  ⟨((claim_C7_amended { demoClient with game := { demoClient.game with
        selectedTile := some ⟨0, 0⟩ } } ⟨0, 0⟩
        ⟨[[demoTile]], some 7, none⟩ ⟨5⟩ 7).1 rfl (by decide) (by decide)).2.1 rfl,
    (claim_C7_amended demoClient ⟨0, 0⟩ ⟨[[demoTile]], some 7, none⟩ ⟨5⟩ 7).2
      rfl (by decide)⟩

/-- C8: an accepted submit with a returned path of length `L` puts the
controller in `ANIMATING` and schedules the terminal `WON` transition after
exactly `L × tick + buffer` milliseconds, which lies between `L × tick` and
`L × tick + buffer + one tick`; firing the scheduled timeout yields `WON`. -/
theorem claim_C8 (s : ClientState) (res : SubmitResponse) (p : List PathCell)
    (hst : s.game.status = .PLAYING) (hsid : s.sessionId ≠ "")
    (hv : res.valid = true) (hp : res.path = some p) :
    (handleSubmit s (.ok res)).1.game.status = .ANIMATING ∧
    (handleSubmit s (.ok res)).2 =
      some (p.length * ANIMATION_STEP_MS + ANIMATION_END_BUFFER_MS) ∧
    (∀ d, (handleSubmit s (.ok res)).2 = some d →
      p.length * ANIMATION_STEP_MS ≤ d ∧
      d ≤ p.length * ANIMATION_STEP_MS + ANIMATION_END_BUFFER_MS +
            ANIMATION_STEP_MS) ∧
    (wonFire (handleSubmit s (.ok res)).1).game.status = .WON := by
  have hguard : ¬(s.game.status ≠ GameStatus.PLAYING ∨ s.sessionId = "") := by
    simp [hst, hsid]
  unfold handleSubmit
  rw [if_neg hguard]
  simp only [hp, hv, if_pos]
  refine ⟨trivial, trivial, ?_, rfl⟩
  intro d hd
  have hd' : d = p.length * ANIMATION_STEP_MS + ANIMATION_END_BUFFER_MS :=
    (Option.some.injEq _ _ ▸ hd).symm
  simp only [ANIMATION_STEP_MS, ANIMATION_END_BUFFER_MS] at hd' ⊢
  omega

/-- Witness for C8 on the spec's own example: a valid three-cell path
schedules `WON` after `3 × 400 + 800 = 2000` milliseconds. -/
theorem claim_C8_witness :
    (handleSubmit demoClient
        (.ok ⟨true, "WON", some [⟨0, 0⟩, ⟨0, 1⟩, ⟨1, 1⟩]⟩)).1.game.status =
      .ANIMATING ∧
    (handleSubmit demoClient
        (.ok ⟨true, "WON", some [⟨0, 0⟩, ⟨0, 1⟩, ⟨1, 1⟩]⟩)).2 = some 2000 :=
  ⟨(claim_C8 demoClient ⟨true, "WON", some [⟨0, 0⟩, ⟨0, 1⟩, ⟨1, 1⟩]⟩
      [⟨0, 0⟩, ⟨0, 1⟩, ⟨1, 1⟩] rfl (by decide) rfl rfl).1,
    by
      have h := (claim_C8 demoClient ⟨true, "WON", some [⟨0, 0⟩, ⟨0, 1⟩, ⟨1, 1⟩]⟩
        [⟨0, 0⟩, ⟨0, 1⟩, ⟨1, 1⟩] rfl (by decide) rfl rfl).2.1
      simpa using h⟩

end PipePuzzle

/-! ## Session controller: session expiry, round-end latch -/

namespace BubbleSort

/-- Counterexample to C1 as stated: one second before session expiry in
round 1 (one round entered, no result recorded yet), the session tick moves
the screen to `COMPLETE` but appends nothing — the in-progress round
contributes no `RoundResult`, so the list has 0 entries for 1 round entered. -/
theorem claim_C1_cex :
    (step c1State .sessionTick).screen = .COMPLETE ∧
    (step c1State .sessionTick).roundResults.length = 0 ∧
    c1State.screen = .PLAYING ∧
    c1State.round = 1 := by
  refine ⟨?_, ?_, ?_, ?_⟩ <;> rfl

/-- C1 amended: when the session countdown reaches zero while a round is in
progress, the session does transition to the terminal `COMPLETE` screen, but
the session-timer path never calls `endRound` — the whole state apart from the
screen and the zeroed countdown is left as it was, so the in-progress round
contributes no `RoundResult` and the result list keeps one entry per round
that was ended by the round timer, by completion, or by early submit. -/
theorem claim_C1_amended (s : MState) (hs : s.screen = .PLAYING)
    (hexp : s.sessionTime ≤ 1) :
    step s .sessionTick = { s with screen := .COMPLETE, sessionTime := 0 } := by
  show (if s.screen ≠ .PLAYING then s
    else if s.sessionTime ≤ 1 then { s with screen := .COMPLETE, sessionTime := 0 }
    else { s with sessionTime := s.sessionTime - 1 }) = _
  rw [if_neg (by simp [hs]), if_pos hexp]

/-- Witness for the amended C1 at the concrete near-expiry state. -/
theorem claim_C1_witness :
    c1State.screen = .PLAYING ∧
    step c1State .sessionTick =
      { c1State with screen := .COMPLETE, sessionTime := 0 } :=
  ⟨rfl, claim_C1_amended c1State rfl (by decide)⟩

end BubbleSort

/-! ## Properties of the selection scorer -/

namespace BubbleSort

/-- Among bubbles with pairwise distinct ids, members are determined by their
id. -/
theorem eq_of_id_eq_of_nodup {l : List BubbleData} {a b : BubbleData}
    (hnd : (l.map (·.id)).Nodup) (ha : a ∈ l) (hb : b ∈ l)
    (hid : a.id = b.id) : a = b := by
  induction l with
  | nil => cases ha
  | cons x xs ih =>
    simp only [List.map_cons, List.nodup_cons] at hnd
    rcases List.mem_cons.1 ha with rfl | ha' <;>
      rcases List.mem_cons.1 hb with rfl | hb'
    · rfl
    · exact absurd (hid ▸ List.mem_map_of_mem (·.id) hb') hnd.1
    · exact absurd (hid ▸ List.mem_map_of_mem (·.id) ha') hnd.1
    · exact ih hnd.2 ha' hb'

/-- With pairwise distinct ids, `find` by id returns the member itself. -/
theorem find_by_id {l : List BubbleData} {b : BubbleData}
    (hnd : (l.map (·.id)).Nodup) (hb : b ∈ l) :
    l.find? (fun x => x.id == b.id) = some b := by
  induction l with
  | nil => cases hb
  | cons x xs ih =>
    simp only [List.map_cons, List.nodup_cons] at hnd
    rcases List.mem_cons.1 hb with rfl | hb'
    · exact List.find?_cons_of_pos _ (by simp)
    · have hne : x.id ≠ b.id := by
        intro he
        exact hnd.1 (he ▸ List.mem_map_of_mem (·.id) hb')
      rw [List.find?_cons_of_neg _ (by simp [hne])]
      exact ih hnd.2 hb'

/-- Marking a bubble by id does not change the id sequence. -/
theorem map_id_mark (l : List BubbleData) (i : Nat) :
    ((l.map fun x => if x.id = i then { x with selected := true } else x).map
        (·.id)) = l.map (·.id) := by
  rw [List.map_map]
  refine List.map_congr_left fun x _ => ?_
  by_cases h : x.id = i <;> simp [h]

/-- Marking a bubble by id preserves the list length. -/
theorem length_mark (l : List BubbleData) (i : Nat) :
    (l.map fun x => if x.id = i then { x with selected := true } else x).length =
      l.length := by
  simp

/-- Marking the unselected member `b` removes exactly `b` from the unselected
sublist (first occurrence — unique, since ids are distinct). -/
theorem filter_mark_erase {l : List BubbleData} {b : BubbleData}
    (hnd : (l.map (·.id)).Nodup) (hb : b ∈ l) (hsel : b.selected = false) :
    ((l.map fun x => if x.id = b.id then { x with selected := true } else x).filter
        fun x => !x.selected) =
      (l.filter fun x => !x.selected).erase b := by
  induction l with
  | nil => cases hb
  | cons x xs ih =>
    simp only [List.map_cons, List.nodup_cons] at hnd
    rcases List.mem_cons.1 hb with rfl | hb'
    · have hxs : (xs.map fun x => if x.id = b.id then { x with selected := true }
          else x) = xs := by
        have : ∀ x ∈ xs, (if x.id = b.id then { x with selected := true } else x)
            = x := by
          intro x hx
          have hne : x.id ≠ b.id := by
            intro he
            exact hnd.1 (he ▸ List.mem_map_of_mem (·.id) hx)
          rw [if_neg hne]
        calc (xs.map fun x => if x.id = b.id then { x with selected := true }
                else x)
            = xs.map id := List.map_congr_left fun a ha => this a ha
          _ = xs := List.map_id xs
      rw [List.map_cons, hxs, if_pos rfl]
      rw [List.filter_cons_of_neg (by simp), List.filter_cons_of_pos (by simp [hsel]),
        List.erase_cons_head]
    · have hne : x.id ≠ b.id := by
        intro he
        exact hnd.1 (he ▸ List.mem_map_of_mem (·.id) hb')
      have hxb : x ≠ b := fun he => hne (he ▸ rfl)
      rw [List.map_cons, if_neg hne]
      by_cases hxsel : x.selected
      · rw [List.filter_cons_of_neg (by simp [hxsel]),
          List.filter_cons_of_neg (by simp [hxsel])]
        exact ih hnd.2 hb'
      · rw [List.filter_cons_of_pos (by simp [hxsel]),
          List.filter_cons_of_pos (by simp [hxsel]),
          List.erase_cons_tail (by simp [hxb])]
        exact congrArg _ (ih hnd.2 hb')

/-- The head of the code's stable ascending sort is exactly the spec's pick:
the minimum remaining value, ties to the first-generated stimulus. -/
theorem insertionSort_head_eq_specFirstMin (l : List BubbleData) :
    (l.insertionSort fun a b => a.value ≤ b.value).head? = specFirstMin l := by
  induction l with
  | nil => rfl
  | cons b bs ih =>
    show ((bs.insertionSort fun a b => a.value ≤ b.value).orderedInsert
        (fun a b => a.value ≤ b.value) b).head? = _
    cases hs : bs.insertionSort fun a b => a.value ≤ b.value with
    | nil =>
      rw [hs] at ih
      simp only [List.orderedInsert, specFirstMin, ← ih]
      rfl
    | cons y ys =>
      rw [hs] at ih
      have ih' : specFirstMin bs = some y := by rw [← ih]; rfl
      simp only [List.orderedInsert, specFirstMin, ih']
      by_cases h : b.value ≤ y.value
      · rw [if_pos h, if_pos h]
        rfl
      · rw [if_neg h, if_neg h]
        rfl

/-- Removing the head of the stable sort from the unsorted list and sorting
again yields the tail of the original sort. -/
theorem insertionSort_erase_head {l : List BubbleData} {h : BubbleData}
    {t : List BubbleData}
    (he : l.insertionSort (fun a b => a.value ≤ b.value) = h :: t) :
    (l.erase h).insertionSort (fun a b => a.value ≤ b.value) = t := by
  induction l generalizing h t with
  | nil => simp at he
  | cons x xs ih =>
    rw [show (x :: xs).insertionSort (fun a b => a.value ≤ b.value) =
        (xs.insertionSort fun a b => a.value ≤ b.value).orderedInsert
          (fun a b => a.value ≤ b.value) x from rfl] at he
    cases hs : xs.insertionSort fun a b => a.value ≤ b.value with
    | nil =>
      rw [hs] at he
      simp only [List.orderedInsert, List.cons.injEq] at he
      obtain ⟨rfl, rfl⟩ := he
      rw [List.erase_cons_head]
      exact hs
    | cons y ys =>
      rw [hs] at he
      by_cases hxy : x.value ≤ y.value
      · rw [List.orderedInsert, if_pos hxy] at he
        simp only [List.cons.injEq] at he
        obtain ⟨rfl, rfl⟩ := he
        rw [List.erase_cons_head]
        exact hs
      · rw [List.orderedInsert, if_neg hxy] at he
        simp only [List.cons.injEq] at he
        obtain ⟨rfl, rfl⟩ := he
        have hne : x ≠ y := by
          intro hx
          subst hx
          exact hxy (Nat.le_refl _)
        rw [List.erase_cons_tail (by simp [hne])]
        show ((xs.erase y).insertionSort fun a b => a.value ≤ b.value).orderedInsert
            (fun a b => a.value ≤ b.value) x = _
        rw [ih hs]

end BubbleSort

namespace BubbleSort

/-- Clicking an already-consumed stimulus is a no-op. -/
theorem handleBubbleClick_selected {s : MState} {b : BubbleData}
    (hnd : (s.bubbles.map (·.id)).Nodup) (hb : b ∈ s.bubbles)
    (hsel : b.selected = true) :
    handleBubbleClick b.id s = s := by
  unfold handleBubbleClick
  split
  · rfl
  · rw [find_by_id hnd hb]
    simp [hsel]

/-- The correct branch of `handleBubbleClick`: clicking the unconsumed
stimulus of minimum remaining value marks it, bumps the counters, and — when
it was the last one — sets `processing` and schedules the settle timeout. -/
theorem handleBubbleClick_correct {s : MState} {b : BubbleData}
    (hscr : s.screen = .PLAYING) (hproc : s.processing = false)
    (hnd : (s.bubbles.map (·.id)).Nodup) (hb : b ∈ s.bubbles)
    (hsel : b.selected = false)
    (htop : specFirstMin (s.bubbles.filter fun x => !x.selected) = some b) :
    handleBubbleClick b.id s =
      if ((s.bubbles.map fun x =>
            if x.id = b.id then { x with selected := true } else x).filter
          fun x => !x.selected).length = 0 then
        { s with
          correctCount := s.correctCount + 1
          selectionOrder := s.selectionOrder + 1
          bubbles := s.bubbles.map fun x =>
            if x.id = b.id then { x with selected := true } else x
          processing := true
          pendingSettle := s.pendingSettle ++ [⟨captureOf s, CORRECT_DELAY_MS⟩] }
      else
        { s with
          correctCount := s.correctCount + 1
          selectionOrder := s.selectionOrder + 1
          bubbles := s.bubbles.map fun x =>
            if x.id = b.id then { x with selected := true } else x } := by
  have hguard : ¬(s.processing = true ∨ s.screen ≠ GameScreen.PLAYING) := by
    simp [hscr, hproc]
  have hhead : ((s.bubbles.filter fun x => !x.selected).insertionSort
      fun a b => a.value ≤ b.value).head? = some b := by
    rw [insertionSort_head_eq_specFirstMin]
    exact htop
  obtain ⟨rest, hrest⟩ : ∃ rest,
      ((s.bubbles.filter fun x => !x.selected).insertionSort
        fun a b => a.value ≤ b.value) = b :: rest := by
    cases hcase : (s.bubbles.filter fun x => !x.selected).insertionSort
        fun a b => a.value ≤ b.value with
    | nil => rw [hcase] at hhead; cases hhead
    | cons z zs =>
      rw [hcase] at hhead
      obtain rfl : z = b := by simpa using hhead
      exact ⟨zs, rfl⟩
  unfold handleBubbleClick
  rw [if_neg hguard, find_by_id hnd hb]
  simp [hsel, hrest]

/-- The incorrect branch of `handleBubbleClick`: clicking an unconsumed
stimulus that is not the minimum remaining only bumps `wrongCount`. -/
theorem handleBubbleClick_wrong {s : MState} {b : BubbleData}
    (hscr : s.screen = .PLAYING) (hproc : s.processing = false)
    (hnd : (s.bubbles.map (·.id)).Nodup) (hb : b ∈ s.bubbles)
    (hsel : b.selected = false)
    (hnot : specFirstMin (s.bubbles.filter fun x => !x.selected) ≠ some b) :
    handleBubbleClick b.id s = { s with wrongCount := s.wrongCount + 1 } := by
  have hguard : ¬(s.processing = true ∨ s.screen ≠ GameScreen.PLAYING) := by
    simp [hscr, hproc]
  have hbmem : b ∈ s.bubbles.filter fun x => !x.selected :=
    List.mem_filter.2 ⟨hb, by simp [hsel]⟩
  cases hcase : (s.bubbles.filter fun x => !x.selected).insertionSort
      fun a b => a.value ≤ b.value with
  | nil =>
    have : (s.bubbles.filter fun x => !x.selected) = [] :=
      (hcase ▸ List.perm_insertionSort (fun a b : BubbleData => a.value ≤ b.value)
        (s.bubbles.filter fun x => !x.selected)).symm.eq_nil
    rw [this] at hbmem
    cases hbmem
  | cons top rest =>
    have htopmem : top ∈ s.bubbles := by
      have h1 : top ∈ (s.bubbles.filter fun x => !x.selected).insertionSort
          fun a b => a.value ≤ b.value := by
        rw [hcase]
        exact List.mem_cons_self _ _
      exact List.mem_of_mem_filter
        ((List.perm_insertionSort _ _).mem_iff.1 h1)
    have hhead : specFirstMin (s.bubbles.filter fun x => !x.selected) = some top := by
      rw [← insertionSort_head_eq_specFirstMin, hcase]
      rfl
    have hne_id : ¬b.id = top.id := by
      intro he
      apply hnot
      rw [hhead]
      exact congrArg some (eq_of_id_eq_of_nodup hnd htopmem hb he.symm)
    unfold handleBubbleClick
    rw [if_neg hguard, find_by_id hnd hb]
    simp only [hsel, hcase]
    rw [if_neg hne_id]
    simp

end BubbleSort

namespace BubbleSort

/-- Clicking the stimuli of an active round in the order of the stable
ascending sort of its unconsumed stimuli scores every click correct, marks
everything consumed, and — on the last click — schedules round completion
after the settle delay. -/
theorem clickRun_all (l : List BubbleData) :
    ∀ s : MState, s.screen = .PLAYING → s.processing = false →
      (s.bubbles.map (·.id)).Nodup →
      (s.bubbles.filter fun x => !x.selected).insertionSort
        (fun a b => a.value ≤ b.value) = l →
      l ≠ [] →
      (l.foldl (fun st x => handleBubbleClick x.id st) s).correctCount =
          s.correctCount + l.length ∧
      (l.foldl (fun st x => handleBubbleClick x.id st) s).wrongCount =
          s.wrongCount ∧
      (l.foldl (fun st x => handleBubbleClick x.id st) s).processing = true ∧
      (∃ st : Settle,
          (l.foldl (fun st x => handleBubbleClick x.id st) s).pendingSettle =
            s.pendingSettle ++ [st] ∧ st.delay = CORRECT_DELAY_MS) ∧
      ∀ x ∈ (l.foldl (fun st x => handleBubbleClick x.id st) s).bubbles,
        x.selected = true := by
  induction l with
  | nil => intro s _ _ _ _ hne; exact absurd rfl hne
  | cons h t ih =>
    intro s hscr hproc hnd hsort _
    have hhead : specFirstMin (s.bubbles.filter fun x => !x.selected) = some h := by
      rw [← insertionSort_head_eq_specFirstMin, hsort]
      rfl
    have hmem_f : h ∈ s.bubbles.filter fun x => !x.selected := by
      have h1 : h ∈ (s.bubbles.filter fun x => !x.selected).insertionSort
          fun a b => a.value ≤ b.value := by
        rw [hsort]
        exact List.mem_cons_self _ _
      exact (List.perm_insertionSort _ _).mem_iff.1 h1
    have hb : h ∈ s.bubbles := List.mem_of_mem_filter hmem_f
    have hsel : h.selected = false := by
      have h2 := List.of_mem_filter hmem_f
      simpa using h2
    have hstep := handleBubbleClick_correct hscr hproc hnd hb hsel hhead
    have herase : ((s.bubbles.map fun x =>
        if x.id = h.id then { x with selected := true } else x).filter
          fun x => !x.selected) =
        (s.bubbles.filter fun x => !x.selected).erase h :=
      filter_mark_erase hnd hb hsel
    have hsort' : (((s.bubbles.map fun x =>
        if x.id = h.id then { x with selected := true } else x).filter
          fun x => !x.selected).insertionSort fun a b => a.value ≤ b.value) = t := by
      rw [herase]
      exact insertionSort_erase_head hsort
    cases t with
    | nil =>
      have hnil : ((s.bubbles.map fun x =>
          if x.id = h.id then { x with selected := true } else x).filter
            fun x => !x.selected) = [] := by
        have hperm := List.perm_insertionSort
          (fun a b : BubbleData => a.value ≤ b.value)
          ((s.bubbles.map fun x =>
            if x.id = h.id then { x with selected := true } else x).filter
              fun x => !x.selected)
        rw [hsort'] at hperm
        exact hperm.symm.eq_nil
      rw [List.foldl_cons, List.foldl_nil, hstep,
        if_pos (by rw [hnil]; rfl)]
      refine ⟨by simp, rfl, rfl,
        ⟨⟨captureOf s, CORRECT_DELAY_MS⟩, rfl, rfl⟩, ?_⟩
      intro x hx
      have h3 := List.filter_eq_nil_iff.1 hnil x hx
      simpa using h3
    | cons y ys =>
      have hne' : ¬(((s.bubbles.map fun x =>
          if x.id = h.id then { x with selected := true } else x).filter
            fun x => !x.selected).length = 0) := by
        intro h0
        rw [List.length_eq_zero.1 h0] at hsort'
        exact List.noConfusion hsort'
      rw [List.foldl_cons, hstep, if_neg hne']
      have ihres := ih
        { s with
          correctCount := s.correctCount + 1
          selectionOrder := s.selectionOrder + 1
          bubbles := s.bubbles.map fun x =>
            if x.id = h.id then { x with selected := true } else x }
        hscr hproc (by rw [show ({ s with
          correctCount := s.correctCount + 1
          selectionOrder := s.selectionOrder + 1
          bubbles := s.bubbles.map fun x =>
            if x.id = h.id then { x with selected := true } else x } :
              MState).bubbles = s.bubbles.map fun x =>
            if x.id = h.id then { x with selected := true } else x from rfl,
          map_id_mark]; exact hnd)
        hsort' (by exact List.noConfusion)
      refine ⟨?_, ihres.2.1, ihres.2.2.1, ?_, ihres.2.2.2.2⟩
      · rw [ihres.1]
        simp only [List.length_cons]
        omega
      · obtain ⟨st, hst, hd⟩ := ihres.2.2.2.1
        exact ⟨st, hst, hd⟩

end BubbleSort

namespace BubbleSort

/-- C4: during an active round a click on stimulus `b` is counted correct —
`correctCount` goes up by one — exactly when `b` is not yet consumed and is
the spec's pick (minimum remaining target value, ties to the first-generated
stimulus); and from a fresh round, clicking all stimuli in true ascending
order yields `correctCount` equal to the item count, `incorrectCount` zero,
and schedules round completion after the fixed settle delay. -/
theorem claim_C4 (s : MState) (hscr : s.screen = .PLAYING)
    (hproc : s.processing = false) (hnd : (s.bubbles.map (·.id)).Nodup) :
    (∀ b ∈ s.bubbles,
      ((handleBubbleClick b.id s).correctCount = s.correctCount + 1 ↔
        b.selected = false ∧
          specFirstMin (s.bubbles.filter fun x => !x.selected) = some b)) ∧
    ((∀ b ∈ s.bubbles, b.selected = false) → s.correctCount = 0 →
      s.wrongCount = 0 → s.bubbles ≠ [] →
      (((s.bubbles.filter fun x => !x.selected).insertionSort
          fun a b => a.value ≤ b.value).foldl
            (fun st x => handleBubbleClick x.id st) s).correctCount =
          s.bubbles.length ∧
      (((s.bubbles.filter fun x => !x.selected).insertionSort
          fun a b => a.value ≤ b.value).foldl
            (fun st x => handleBubbleClick x.id st) s).wrongCount = 0 ∧
      ∃ st : Settle,
        (((s.bubbles.filter fun x => !x.selected).insertionSort
            fun a b => a.value ≤ b.value).foldl
              (fun st x => handleBubbleClick x.id st) s).pendingSettle =
          s.pendingSettle ++ [st] ∧ st.delay = CORRECT_DELAY_MS) := by
  constructor
  · intro b hb
    constructor
    · intro hinc
      by_cases hsel : b.selected
      · rw [handleBubbleClick_selected hnd hb hsel] at hinc
        omega
      · have hsel' : b.selected = false := by simpa using hsel
        refine ⟨hsel', ?_⟩
        by_contra hnot
        rw [handleBubbleClick_wrong hscr hproc hnd hb hsel' hnot] at hinc
        simp only [] at hinc
        omega
    · rintro ⟨hsel, htop⟩
      rw [handleBubbleClick_correct hscr hproc hnd hb hsel htop]
      split
      · rfl
      · rfl
  · intro hall hc hw hne
    have hfil : (s.bubbles.filter fun x => !x.selected) = s.bubbles :=
      List.filter_eq_self.2 fun b hb => by simp [hall b hb]
    have hlen : ((s.bubbles.filter fun x => !x.selected).insertionSort
        fun a b => a.value ≤ b.value).length = s.bubbles.length := by
      rw [(List.perm_insertionSort _ _).length_eq, hfil]
    have hlne : ((s.bubbles.filter fun x => !x.selected).insertionSort
        fun a b => a.value ≤ b.value) ≠ [] := by
      intro h0
      rw [h0] at hlen
      exact hne (List.length_eq_zero.1 hlen.symm)
    have hres := clickRun_all _ s hscr hproc hnd rfl hlne
    refine ⟨?_, ?_, hres.2.2.2.1⟩
    · rw [hres.1, hc, hlen, Nat.zero_add]
    · rw [hres.2.1, hw]

/-- Witness for C4 at the concrete round-1 state: the three clicks in
ascending order of value give three corrects, zero wrongs, and one scheduled
settle timeout of 250 milliseconds. -/
theorem claim_C4_witness :
    playState.bubbles ≠ [] ∧
    (((playState.bubbles.filter fun x => !x.selected).insertionSort
        fun a b => a.value ≤ b.value).foldl
          (fun st x => handleBubbleClick x.id st) playState).correctCount = 3 ∧
    (((playState.bubbles.filter fun x => !x.selected).insertionSort
        fun a b => a.value ≤ b.value).foldl
          (fun st x => handleBubbleClick x.id st) playState).wrongCount = 0 ∧
    ∃ st : Settle,
      (((playState.bubbles.filter fun x => !x.selected).insertionSort
          fun a b => a.value ≤ b.value).foldl
            (fun st x => handleBubbleClick x.id st) playState).pendingSettle =
        playState.pendingSettle ++ [st] ∧ st.delay = CORRECT_DELAY_MS := by
  have h := (claim_C4 playState rfl rfl (by decide)).2 (by decide) rfl rfl
    (by decide)
  exact ⟨by decide, h.1, h.2.1, h.2.2⟩

/-- C9: during an active round, a click on an unconsumed stimulus that is not
the minimum remaining increments `wrongCount` by exactly one and changes
nothing else — no consumption, no `correctCount` change, no change to the
stimulus set, and no completion scheduled. -/
theorem claim_C9 (s : MState) (b : BubbleData) (hscr : s.screen = .PLAYING)
    (hproc : s.processing = false) (hnd : (s.bubbles.map (·.id)).Nodup)
    (hb : b ∈ s.bubbles) (hsel : b.selected = false)
    (hnot : specFirstMin (s.bubbles.filter fun x => !x.selected) ≠ some b) :
    handleBubbleClick b.id s = { s with wrongCount := s.wrongCount + 1 } :=
  handleBubbleClick_wrong hscr hproc hnd hb hsel hnot

/-- Witness for C9: clicking the second-lowest bubble (value 11) of the
concrete round-1 state bumps only `wrongCount`. -/
theorem claim_C9_witness :
    handleBubbleClick
        (playState.bubbles.getD 1 ⟨0, ⟨0, .add, 0⟩, 0, false, 0, 0, 0⟩).id
        playState =
      { playState with wrongCount := playState.wrongCount + 1 } :=
  claim_C9 playState _ rfl rfl (by decide) (by decide) (by decide) (by decide)

end BubbleSort

namespace BubbleSort

theorem length_filter_sel_add (l : List BubbleData) :
    (l.filter (·.selected)).length + (l.filter fun x => !x.selected).length =
      l.length := by
  induction l with
  | nil => rfl
  | cons x xs ih =>
    by_cases hx : x.selected <;> simp [List.filter_cons, hx] <;> omega

/-- Marking the unconsumed member `b` grows the consumed sublist by one. -/
theorem filter_sel_mark {l : List BubbleData} {b : BubbleData}
    (hnd : (l.map (·.id)).Nodup) (hb : b ∈ l) (hsel : b.selected = false) :
    ((l.map fun x => if x.id = b.id then { x with selected := true } else x).filter
        (·.selected)).length = (l.filter (·.selected)).length + 1 := by
  have hmem : b ∈ l.filter fun x => !x.selected :=
    List.mem_filter.2 ⟨hb, by simp [hsel]⟩
  have h1 := length_filter_sel_add
    (l.map fun x => if x.id = b.id then { x with selected := true } else x)
  have h2 := length_filter_sel_add l
  have h3 : ((l.map fun x =>
      if x.id = b.id then { x with selected := true } else x).filter
        fun x => !x.selected).length =
      (l.filter fun x => !x.selected).length - 1 := by
    rw [filter_mark_erase hnd hb hsel]
    exact List.length_erase_of_mem hmem
  have h4 : (l.map fun x =>
      if x.id = b.id then { x with selected := true } else x).length = l.length := by
    simp
  have h5 : 0 < (l.filter fun x => !x.selected).length :=
    List.length_pos.2 (List.ne_nil_of_mem hmem)
  omega

theorem handleBubbleClick_invariant (i : Nat) (s : MState)
    (h : scoreInvariant s) : scoreInvariant (handleBubbleClick i s) := by
  unfold handleBubbleClick
  split
  · exact h
  · split
    · exact h
    · rename_i bubble hfind
      split
      · exact h
      · rename_i hselT
        dsimp only
        split
        · exact h
        · rename_i top rest hsort
          split
          · rename_i hid
            have hmem : bubble ∈ s.bubbles := List.mem_of_find?_eq_some hfind
            have hbi : bubble.id = i := by
              have := List.find?_some hfind
              simpa using this
            have hself : bubble.selected = false := by
              simpa using hselT
            subst hbi
            have hA : s.correctCount + 1 =
                ((s.bubbles.map fun x =>
                  if x.id = bubble.id then { x with selected := true }
                  else x).filter (·.selected)).length := by
              rw [filter_sel_mark h.2 hmem hself, ← h.1]
            have hB : (((s.bubbles.map fun x =>
                if x.id = bubble.id then { x with selected := true }
                else x)).map (·.id)).Nodup := by
              rw [map_id_mark]
              exact h.2
            split
            · exact ⟨hA, hB⟩
            · exact ⟨hA, hB⟩
          · exact h

theorem startRound_invariant (n : Nat) (s : MState) :
    scoreInvariant (startRound n s) := by
  have hgen : ∀ (cfg : DifficultyConfig) (round : Nat),
      ((generateBubbles cfg round s.rand s.randIdx).1.filter (·.selected)) = [] ∧
      ((generateBubbles cfg round s.rand s.randIdx).1.map (·.id)).Nodup := by
    intro cfg round
    constructor
    · refine List.filter_eq_nil_iff.2 fun b hb => ?_
      have hb' := genBubblesAux_unselected cfg.operators cfg.maxNumber
        (SCATTER_POSITIONS.getD ((round - 1) % SCATTER_POSITIONS.length) [])
        s.rand cfg.bubbleCount 0 [] s.randIdx b hb
      simp [hb']
    · have hids := genBubblesAux_ids cfg.operators cfg.maxNumber
        (SCATTER_POSITIONS.getD ((round - 1) % SCATTER_POSITIONS.length) [])
        s.rand cfg.bubbleCount 0 [] s.randIdx
      rw [show (generateBubbles cfg round s.rand s.randIdx).1 =
        (genBubblesAux cfg.operators cfg.maxNumber
          (SCATTER_POSITIONS.getD ((round - 1) % SCATTER_POSITIONS.length) [])
          s.rand 0 cfg.bubbleCount [] s.randIdx).1 from rfl, hids]
      exact List.nodup_range' _ _
  constructor
  · show 0 = ((generateBubbles (DIFFICULTY_TABLE.getD
        (min (n - 1) (DIFFICULTY_TABLE.length - 1)) ⟨3, [.add], 20, ROUND_TIME⟩)
        n s.rand s.randIdx).1.filter (·.selected)).length
    rw [(hgen _ n).1]
    rfl
  · show ((generateBubbles (DIFFICULTY_TABLE.getD
        (min (n - 1) (DIFFICULTY_TABLE.length - 1)) ⟨3, [.add], 20, ROUND_TIME⟩)
        n s.rand s.randIdx).1.map (·.id)).Nodup
    exact (hgen _ n).2

theorem endRoundWith_invariant (cap : Capture) (c : Bool) (s : MState)
    (h : scoreInvariant s) : scoreInvariant (endRoundWith cap c s) := by
  unfold endRoundWith
  split
  · exact h
  · split
    · exact h
    · exact startRound_invariant _ _

theorem step_invariant (s : MState) (e : Event) (h : scoreInvariant s) :
    scoreInvariant (step s e) := by
  cases e with
  | sessionTick =>
    simp only [step]
    split
    · exact h
    · split
      · exact h
      · exact h
  | roundTick =>
    simp only [step]
    split
    · exact h
    · split
      · exact endRoundWith_invariant _ _ _ h
      · exact h
  | click i => exact handleBubbleClick_invariant i s h
  | settleFire =>
    simp only [step]
    split
    · exact h
    · exact endRoundWith_invariant _ _ _ h
  | submit => exact h
  | elapse ms => exact h

end BubbleSort

namespace BubbleSort

/-- C10: throughout every session, `correctCount` equals the number of stimuli
currently marked consumed — established by `handleStart`, preserved by every
event — so it never exceeds the round's item count; `incorrectCount` has no
such bound (four wrong clicks in a three-item round reach `wrongCount = 4`). -/
theorem claim_C10 :
    (∀ (s : MState) (e : Event), scoreInvariant s → scoreInvariant (step s e)) ∧
    (∀ s : MState, scoreInvariant (handleStart s)) ∧
    (∀ s : MState, scoreInvariant s → s.correctCount ≤ s.bubbles.length) ∧
    c10Final.wrongCount = 4 ∧ c10Final.bubbles.length = 3 ∧
    c10Final.correctCount = 0 := by
  refine ⟨step_invariant, fun s => startRound_invariant 1 _, ?_, ?_, ?_, ?_⟩
  · intro s h
    calc s.correctCount = (s.bubbles.filter (·.selected)).length := h.1
      _ ≤ s.bubbles.length := List.length_filter_le _ _
  · decide
  · decide
  · decide

/-- Witness for C10 at the concrete round-1 state and one wrong click. -/
theorem claim_C10_witness :
    scoreInvariant playState ∧
    scoreInvariant (step playState (Event.click 1)) ∧
    playState.correctCount ≤ playState.bubbles.length :=
  ⟨⟨by decide, by decide⟩,
    claim_C10.1 playState (Event.click 1) ⟨by decide, by decide⟩,
    claim_C10.2.2.1 playState ⟨by decide, by decide⟩⟩

set_option maxRecDepth 8000 in
/-- Counterexample to C3 as stated: in the round-end race — the candidate
completes round 1 in its final second, the round timer expires first, then the
stale settle timeout fires — the one round entered before the race produces
TWO appended `RoundResult`s and the round index advances twice (1 to 3). -/
theorem claim_C3_cex :
    (run playState (ticks 14 ++
        [Event.click 0, Event.click 1, Event.click 2])).round = 1 ∧
    (run playState (ticks 14 ++
        [Event.click 0, Event.click 1, Event.click 2])).roundResults.length = 0 ∧
    c3Final.roundResults.length = 2 ∧
    c3Final.round = 3 := by
  refine ⟨?_, ?_, ?_, ?_⟩ <;> decide

/-- C3 amended: a round-end invocation while the one-shot latch is set is a
no-op, every invocation with the latch clear appends exactly one
`RoundResult`, and the latch is cleared (only) by `startRound` when the next
round starts — so it is already clear again for a stale invocation arriving
after the round advanced, which then ends the new round as well. -/
theorem claim_C3_amended :
    (∀ (cap : Capture) (c : Bool) (s : MState), s.roundEnded = true →
      endRoundWith cap c s = s) ∧
    (∀ (c : Bool) (s : MState), s.roundEnded = false →
      (endRound c s).roundResults.length = s.roundResults.length + 1) ∧
    (∀ (n : Nat) (s : MState), (startRound n s).roundEnded = false) := by
  refine ⟨?_, ?_, ?_⟩
  · intro cap c s h
    unfold endRoundWith
    rw [if_pos h]
  · intro c s h
    unfold endRound endRoundWith
    rw [if_neg (by simp [h])]
    split
    · simp
    · show (startRound _ _).roundResults.length = _
      unfold startRound
      simp
  · intro n s
    rfl

/-- Witness for the amended C3 at concrete states. -/
theorem claim_C3_witness :
    endRoundWith (captureOf playState) false { playState with roundEnded := true }
        = { playState with roundEnded := true } ∧
    (endRound false playState).roundResults.length = 1 ∧
    (startRound 2 playState).roundEnded = false :=
  ⟨claim_C3_amended.1 (captureOf playState) false _ rfl,
    claim_C3_amended.2.1 false playState rfl,
    claim_C3_amended.2.2 2 playState⟩

end BubbleSort
